import Mathlib

/-!
Verification development for the `fastrace-tracing` compatibility layer
(`src/lib.rs`): a bridge that re-expresses `tokio-tracing` span/event
notifications as `fastrace` spans and events.

The embedding below translates the bridge's data model and operations into
Lean. External collaborators (the `tracing` host framework's span registry,
`fastrace`'s span/event construction API, Rust's `Display`/`Debug`
formatting) are modelled at the interface level the bridge consumes.
-/

namespace FastraceTracing

/-- A property is an ordered (key, value) pair of strings; keys may repeat. -/
abbrev Property := String × String

/-- Model of a `std::error::Error` trait object as the bridge consumes it:
its `Display` rendering (`to_string`) and its `source()` cause — `last`
is an error whose `source()` is `None`, `withSource` one whose `source()`
is `Some` of the given cause. -/
inductive RustError : Type where
  | last (display : String)
  | withSource (display : String) (src : RustError)
deriving DecidableEq

/-- The error's `Display` text (`value.to_string()` in the source). -/
def RustError.display : RustError → String
  | .last d => d
  | .withSource d _ => d

/-- The error's `source()` cause, if any. -/
def RustError.source : RustError → Option RustError
  | .last _ => none
  | .withSource _ s => some s

/-- The loop body of `record_error`: starting at a cause, push its display
text and continue with its own `source()` until exhausted. -/
def chainLoop : RustError → List String
  | .last d => [d]
  | .withSource d e => d :: chainLoop e

/-- The `chain` vector built by `record_error`: the walk starts at
`value.source()`, so the top-level error itself is not included. -/
def errorChain (e : RustError) : List String :=
  match e.source with
  | none => []
  | some e' => chainLoop e'

/-- One escaped character of Rust's `Debug` rendering of a string
(external Rust standard library behaviour, modelled for the escapes that
occur in practice: backslash, quote, newline, carriage return, tab). -/
def escapeDebugChar (c : Char) : String :=
  if c = '"' then "\\\""
  else if c = '\\' then "\\\\"
  else if c = '\n' then "\\n"
  else if c = '\r' then "\\r"
  else if c = '\t' then "\\t"
  else String.singleton c

/-- Rust's `Debug` rendering of a `String` (quoted, escaped). -/
def rustDebugString (s : String) : String :=
  "\"" ++ String.join (s.toList.map escapeDebugChar) ++ "\""

/-- Rust's `Debug` rendering of a `Vec<String>`, as produced by the
formatting call on the `chain` vector in `record_error`. -/
def rustDebugList (xs : List String) : String :=
  "[" ++ String.intercalate ", " (xs.map rustDebugString) ++ "]"

/-- The six typed field values a visitor can receive. Values whose textual
rendering is produced outside the bridge (`f64` display text, `Debug`
text of an opaque value) carry that rendering directly. -/
inductive FieldValue : Type where
  | vBool (b : Bool)
  | vF64 (displayText : String)
  | vI64 (n : Int)
  | vStr (s : String)
  | vDebug (debugText : String)
  | vError (e : RustError)
deriving DecidableEq

/-- A named field as presented to a visitor. -/
structure Field where
  name : String
  value : FieldValue
deriving DecidableEq

/-- Model of `fastrace::Event`: a name and an ordered property list. -/
structure FEvent where
  name : String
  properties : List Property
deriving DecidableEq

/-- `fastrace::Event::new`. -/
def FEvent.new (name : String) : FEvent := ⟨name, []⟩

/-- `fastrace::Event::with_property`: appends one property. -/
def FEvent.with_property (e : FEvent) (p : Property) : FEvent :=
  ⟨e.name, e.properties ++ [p]⟩

/-- `fastrace::Event::with_properties`: appends a batch of properties. -/
def FEvent.with_properties (e : FEvent) (ps : List Property) : FEvent :=
  ⟨e.name, e.properties ++ ps⟩

/-- Model of `fastrace::Span` at the interface the bridge consumes: the
construction path is recorded (no-op default span, root with a fresh trace
identity, child of an explicit parent handle, child via the ambient
local-parent mechanism), together with accumulated properties and attached
child events. -/
inductive FSpan : Type where
  | noop (properties : List Property) (events : List FEvent)
  | root (name : String) (traceId : Nat) (properties : List Property)
      (events : List FEvent)
  | child (name : String) (parent : FSpan) (properties : List Property)
      (events : List FEvent)
  | localChild (name : String) (properties : List Property)
      (events : List FEvent)
deriving DecidableEq

/-- Accumulated properties of a span. -/
def FSpan.properties : FSpan → List Property
  | .noop ps _ => ps
  | .root _ _ ps _ => ps
  | .child _ _ ps _ => ps
  | .localChild _ ps _ => ps

/-- Attached child events of a span. -/
def FSpan.events : FSpan → List FEvent
  | .noop _ es => es
  | .root _ _ _ es => es
  | .child _ _ _ es => es
  | .localChild _ _ es => es

/-- `fastrace::Span::with_property`: appends one property. -/
def FSpan.with_property : FSpan → Property → FSpan
  | .noop ps es, p => .noop (ps ++ [p]) es
  | .root n t ps es, p => .root n t (ps ++ [p]) es
  | .child n pa ps es, p => .child n pa (ps ++ [p]) es
  | .localChild n ps es, p => .localChild n (ps ++ [p]) es

/-- `fastrace::Span::with_properties`: appends a batch of properties. -/
def FSpan.with_properties : FSpan → List Property → FSpan
  | .noop ps es, qs => .noop (ps ++ qs) es
  | .root n t ps es, qs => .root n t (ps ++ qs) es
  | .child n pa ps es, qs => .child n pa (ps ++ qs) es
  | .localChild n ps es, qs => .localChild n (ps ++ qs) es

/-- `fastrace::Span::add_event`: appends a child event. -/
def FSpan.add_event : FSpan → FEvent → FSpan
  | .noop ps es, e => .noop ps (es ++ [e])
  | .root n t ps es, e => .root n t ps (es ++ [e])
  | .child n pa ps es, e => .child n pa ps (es ++ [e])
  | .localChild n ps es, e => .localChild n ps (es ++ [e])

/-- `fastrace::Span::default()`: the no-op span. -/
def spanDefault : FSpan := .noop [] []

/-- The textual rendering each `EventNameFinder` handler stores: bool,
i64, f64, str and error use the `to_string` rendering, debug values the
`Debug` rendering — matching the six handlers in the source. -/
def nameFinderText : FieldValue → String
  | .vBool b => toString b
  | .vF64 t => t
  | .vI64 n => toString n
  | .vStr s => s
  | .vDebug t => t
  | .vError e => e.display

/-- One handler invocation of `EventNameFinder`: each typed handler
overwrites any previous finding when the field is named "message". -/
def eventNameFinderStep (acc : Option String) (f : Field) : Option String :=
  if f.name = "message" then some (nameFinderText f.value) else acc

/-- Running `EventNameFinder` over all fields of an event record. -/
def findEventName (fields : List Field) : Option String :=
  fields.foldl eventNameFinderStep none

/-- One handler invocation of `EventVisitor` (`impl field::Visit for
EventVisitor`): fields named "message" are skipped in every handler;
error fields expand to four properties; the other kinds append one
property with the kind-appropriate textual serialization. -/
def eventRecordField (ev : FEvent) (f : Field) : FEvent :=
  if f.name = "message" then ev
  else
    match f.value with
    | .vBool b => ev.with_property (f.name, toString b)
    | .vF64 t => ev.with_property (f.name, t)
    | .vI64 n => ev.with_property (f.name, toString n)
    | .vStr s => ev.with_property (f.name, s)
    | .vDebug t => ev.with_property (f.name, t)
    | .vError e =>
        ((((ev.with_property (f.name, e.display)).with_property
            ("exception.message", e.display)).with_property
            (f.name ++ ".chain", rustDebugList (errorChain e))).with_property
            ("exception.stacktrace", rustDebugList (errorChain e)))

/-- One handler invocation of `SpanAttributeVisitor` (`impl field::Visit
for SpanAttributeVisitor`): same serialization as the event visitor but
with no special-casing of "message". -/
def spanRecordField (sp : FSpan) (f : Field) : FSpan :=
  match f.value with
  | .vBool b => sp.with_property (f.name, toString b)
  | .vF64 t => sp.with_property (f.name, t)
  | .vI64 n => sp.with_property (f.name, toString n)
  | .vStr s => sp.with_property (f.name, s)
  | .vDebug t => sp.with_property (f.name, t)
  | .vError e =>
      ((((sp.with_property (f.name, e.display)).with_property
          ("exception.message", e.display)).with_property
          (f.name ++ ".chain", rustDebugList (errorChain e))).with_property
          ("exception.stacktrace", rustDebugList (errorChain e)))

/-- Model of `tracing_core::span::Parent`: explicitly-declared root,
contextual ("current"), or an explicit parent identifier. -/
inductive Parent : Type where
  | root
  | current
  | explicit (id : Nat)
deriving DecidableEq

/-- `Attributes::parent()` / `Event::parent()`: the explicit parent
identifier, if one was declared. -/
def Parent.parentId : Parent → Option Nat
  | .explicit i => some i
  | _ => none

/-- `Attributes::is_contextual()` / `Event::is_contextual()`: true exactly
when parentage is to be inferred from the current context. -/
def Parent.isContextual : Parent → Bool
  | .current => true
  | _ => false

/-- Static call-site metadata of a span or event: declared name,
target/category, textual severity, and optional file / module path /
line number. -/
structure Metadata where
  name : String
  target : String
  level : String
  file : Option String
  module_path : Option String
  line : Option Nat
deriving DecidableEq

/-- Model of `tracing_core::span::Attributes`: metadata, parentage, and
the creation record's fields. -/
structure Attributes where
  metadata : Metadata
  parent : Parent
  fields : List Field
deriving DecidableEq

/-- Model of a `tracing_core::Event` notification. -/
structure TracingEvent where
  metadata : Metadata
  parent : Parent
  fields : List Field
deriving DecidableEq

/-- Model of the host framework's state as seen through
`tracing_subscriber::layer::Context`: the registry maps a span identifier
to its extension storage (`some none` = live span with no `fastrace::Span`
extension, `some (some s)` = live span holding extension `s`, `none` = no
live span with that identifier); `current` is the identifier of the
currently-active span; `localParentActive` models whether
`SpanContext::current_local_parent()` returns `Some`; `freshTraceId`
models the next `SpanContext::random()` trace identity; `threadId` and
`threadName` model the calling OS thread. -/
structure Ctx where
  registry : List (Nat × Option FSpan)
  current : Option Nat
  localParentActive : Bool
  freshTraceId : Nat
  threadId : Nat
  threadName : Option String
deriving DecidableEq

/-- `Context::span(id)`: look up a live span's extension storage. -/
def Ctx.span (c : Ctx) (id : Nat) : Option (Option FSpan) :=
  (c.registry.find? (fun e => e.1 == id)).map (fun e => e.2)

/-- `Context::lookup_current()`: the currently-active span (identifier
and extension storage), if any. -/
def Ctx.lookup_current (c : Ctx) : Option (Nat × Option FSpan) :=
  c.current.bind (fun id => (c.span id).map (fun ext => (id, ext)))

/-- Store a `fastrace::Span` as the extension of span `id`
(the effect of writing through `extensions_mut`). -/
def Ctx.setSpanExt (c : Ctx) (id : Nat) (fs : FSpan) : Ctx :=
  { c with
    registry := c.registry.map (fun e => if e.1 == id then (e.1, some fs) else e) }

/-- Model of `FastraceCompatLayer`: the three configuration toggles. -/
structure FastraceCompatLayer where
  location : Bool
  with_threads : Bool
  with_level : Bool
deriving DecidableEq

/-- `FastraceCompatLayer::new()`: default configuration. -/
def FastraceCompatLayer.new : FastraceCompatLayer :=
  { location := true, with_threads := true, with_level := false }

/-- The shared tail of `new_fastrace_span`: when no explicit parent
resolved, a contextual span tries the current span's extension, then the
ambient local parent, then a fresh root; a non-contextual span (explicit
root, or an explicit parent that did not resolve) becomes a fresh root. -/
def contextualOrRootSpan (attrs : Attributes) (ctx : Ctx) : FSpan :=
  if attrs.parent.isContextual then
    (((ctx.lookup_current.bind fun se =>
          se.2.map fun p => FSpan.child attrs.metadata.name p [] []).orElse
        fun _ =>
          if ctx.localParentActive then
            some (FSpan.localChild attrs.metadata.name [] [])
          else none).getD
      (FSpan.root attrs.metadata.name ctx.freshTraceId [] []))
  else FSpan.root attrs.metadata.name ctx.freshTraceId [] []

/-- `FastraceCompatLayer::new_fastrace_span`: parent resolution.  An
explicit parent that resolves to a live span yields a child of that
span's stored extension, or the default no-op span when the live span
carries no extension; otherwise resolution falls through to
`contextualOrRootSpan`. -/
def new_fastrace_span (attrs : Attributes) (ctx : Ctx) : FSpan :=
  match attrs.parent.parentId with
  | some parent =>
      match ctx.span parent with
      | some extensions =>
          (extensions.map fun p =>
              FSpan.child attrs.metadata.name p [] []).getD spanDefault
      | none => contextualOrRootSpan attrs ctx
  | none => contextualOrRootSpan attrs ctx

/-- The enrichment property batch built by `on_new_span` before field
recording: location properties (when `location` is set), thread identity
(when `with_threads` is set), and the textual severity (when `with_level`
is set), pushed in exactly this order. -/
def spanEnrichProps (self : FastraceCompatLayer) (attrs : Attributes)
    (ctx : Ctx) : List Property :=
  (if self.location then
      (match attrs.metadata.file with
        | some f => [("code.filepath", f)]
        | none => []) ++
      (match attrs.metadata.module_path with
        | some m => [("code.namespace", m)]
        | none => []) ++
      (match attrs.metadata.line with
        | some l => [("code.lineno", toString l)]
        | none => [])
    else []) ++
  (if self.with_threads then
      [("thread.id", toString ctx.threadId)] ++
      (match ctx.threadName with
        | some n => [("thread.name", n)]
        | none => [])
    else []) ++
  (if self.with_level then [("level", attrs.metadata.level)] else [])

/-- `Layer::on_new_span`: look up the live span (the lookup is asserted —
a miss is a bug), run parent resolution, append the enrichment batch, run
the span attribute visitor over the creation fields, and insert the
result into the span's extension storage.  The insert models the host
framework's documented extension-storage contract: inserting when a value
of the type is already present is a fatal assertion failure, surfaced
here as an error result. -/
def on_new_span (self : FastraceCompatLayer) (attrs : Attributes) (id : Nat)
    (ctx : Ctx) : Except String Ctx :=
  match ctx.span id with
  | none => .error "Span not found, this is a bug"
  | some extensions =>
      let fastrace_span := new_fastrace_span attrs ctx
      let fastrace_span :=
        fastrace_span.with_properties (spanEnrichProps self attrs ctx)
      let fastrace_span := attrs.fields.foldl spanRecordField fastrace_span
      match extensions with
      | some _ => .error "extension already present for this span"
      | none => .ok (ctx.setSpanExt id fastrace_span)

/-- `Layer::on_record`: look up the live span (asserted), then silently
return when it carries no `fastrace::Span` extension; otherwise run the
span attribute visitor over the update's fields, mutating in place. -/
def on_record (id : Nat) (values : List Field) (ctx : Ctx) :
    Except String Ctx :=
  match ctx.span id with
  | none => .error "Span not found, this is a bug"
  | some none => .ok ctx
  | some (some fastrace_span) =>
      .ok (ctx.setSpanExt id (values.foldl spanRecordField fastrace_span))

/-- Building the `fastrace::Event` in `on_event`: resolve the name via
`EventNameFinder` (falling back to the declared metadata name), start
from the two baseline properties `level` and `target`, append location
properties when `location` is set, then run the event visitor over the
fields. -/
def buildFastraceEvent (self : FastraceCompatLayer) (event : TracingEvent) :
    FEvent :=
  let event_name := (findEventName event.fields).getD event.metadata.name
  let fastrace_event := (FEvent.new event_name).with_properties
    [("level", event.metadata.level), ("target", event.metadata.target)]
  let fastrace_event :=
    if self.location then
      let fe :=
        match event.metadata.file with
        | some f => fastrace_event.with_property ("code.filepath", f)
        | none => fastrace_event
      let fe :=
        match event.metadata.module_path with
        | some m => fe.with_property ("code.namespace", m)
        | none => fe
      match event.metadata.line with
      | some l => fe.with_property ("code.lineno", toString l)
      | none => fe
    else fastrace_event
  event.fields.foldl eventRecordField fastrace_event

/-- The owning-span resolution of `on_event`: an explicitly declared
parent identifier that resolves in the registry, otherwise (for a
contextual event) the currently-active span. -/
def resolveEventSpan (ctx : Ctx) (event : TracingEvent) : Option Nat :=
  (event.parent.parentId.bind fun id =>
      (ctx.span id).map fun _ => id).orElse
    fun _ =>
      if event.parent.isContextual then ctx.lookup_current.map (fun se => se.1)
      else none

/-- `Layer::on_event`: resolve the owning span; when it resolves and
carries a `fastrace::Span` extension, build the bridged event and attach
it; in every other case the notification is silently absorbed. -/
def on_event (self : FastraceCompatLayer) (event : TracingEvent) (ctx : Ctx) :
    Ctx :=
  match resolveEventSpan ctx event with
  | none => ctx
  | some id =>
      match ctx.span id with
      | some (some fastrace_span) =>
          ctx.setSpanExt id
            (fastrace_span.add_event (buildFastraceEvent self event))
      | _ => ctx

/-- The property batch one field contributes through the span attribute
visitor: one serialized property for the five plain kinds, the four-way
expansion for an error value. -/
def spanFieldDelta (f : Field) : List Property :=
  match f.value with
  | .vBool b => [(f.name, toString b)]
  | .vF64 t => [(f.name, t)]
  | .vI64 n => [(f.name, toString n)]
  | .vStr s => [(f.name, s)]
  | .vDebug t => [(f.name, t)]
  | .vError e =>
      [(f.name, e.display), ("exception.message", e.display),
       (f.name ++ ".chain", rustDebugList (errorChain e)),
       ("exception.stacktrace", rustDebugList (errorChain e))]

/-- The property batch one field contributes through the event visitor:
as for spans, except that fields named "message" contribute nothing. -/
def eventFieldDelta (f : Field) : List Property :=
  if f.name = "message" then [] else spanFieldDelta f

/-- The location property batch appended to an event when `location` is
set, in source order. -/
def eventLocProps (self : FastraceCompatLayer) (md : Metadata) :
    List Property :=
  if self.location then
    (match md.file with
      | some f => [("code.filepath", f)]
      | none => []) ++
    (match md.module_path with
      | some m => [("code.namespace", m)]
      | none => []) ++
    (match md.line with
      | some l => [("code.lineno", toString l)]
      | none => [])
  else []

theorem FEvent.name_with_property (ev : FEvent) (p : Property) :
    (ev.with_property p).name = ev.name := rfl

theorem FEvent.props_with_property (ev : FEvent) (p : Property) :
    (ev.with_property p).properties = ev.properties ++ [p] := rfl

theorem FSpan.with_property_properties (sp : FSpan) (p : Property) :
    (sp.with_property p).properties = sp.properties ++ [p] := by
  cases sp <;> rfl

theorem FSpan.with_property_events (sp : FSpan) (p : Property) :
    (sp.with_property p).events = sp.events := by
  cases sp <;> rfl

theorem FSpan.with_properties_properties (sp : FSpan) (ps : List Property) :
    (sp.with_properties ps).properties = sp.properties ++ ps := by
  cases sp <;> rfl

theorem FSpan.with_properties_events (sp : FSpan) (ps : List Property) :
    (sp.with_properties ps).events = sp.events := by
  cases sp <;> rfl

theorem eventRecordField_name (ev : FEvent) (f : Field) :
    (eventRecordField ev f).name = ev.name := by
  obtain ⟨n, v⟩ := f
  unfold eventRecordField
  by_cases h : n = "message" <;> cases v <;> simp [h, FEvent.with_property]

theorem eventRecordField_properties (ev : FEvent) (f : Field) :
    (eventRecordField ev f).properties = ev.properties ++ eventFieldDelta f := by
  obtain ⟨n, v⟩ := f
  unfold eventRecordField eventFieldDelta spanFieldDelta
  by_cases h : n = "message" <;> cases v <;> simp [h, FEvent.with_property]

theorem spanRecordField_properties (sp : FSpan) (f : Field) :
    (spanRecordField sp f).properties = sp.properties ++ spanFieldDelta f := by
  obtain ⟨n, v⟩ := f
  unfold spanRecordField spanFieldDelta
  cases v <;> simp [FSpan.with_property_properties]

theorem spanRecordField_events (sp : FSpan) (f : Field) :
    (spanRecordField sp f).events = sp.events := by
  obtain ⟨n, v⟩ := f
  unfold spanRecordField
  cases v <;> simp [FSpan.with_property_events]

theorem foldl_eventRecordField_name (fields : List Field) (ev : FEvent) :
    (fields.foldl eventRecordField ev).name = ev.name := by
  induction fields generalizing ev with
  | nil => rfl
  | cons f fs ih => simp [List.foldl_cons, ih, eventRecordField_name]

theorem foldl_eventRecordField_properties (fields : List Field) (ev : FEvent) :
    (fields.foldl eventRecordField ev).properties =
      ev.properties ++ fields.flatMap eventFieldDelta := by
  induction fields generalizing ev with
  | nil => simp
  | cons f fs ih =>
      simp [List.foldl_cons, ih, eventRecordField_properties,
        List.flatMap_cons, List.append_assoc]

theorem foldl_spanRecordField_properties (fields : List Field) (sp : FSpan) :
    (fields.foldl spanRecordField sp).properties =
      sp.properties ++ fields.flatMap spanFieldDelta := by
  induction fields generalizing sp with
  | nil => simp
  | cons f fs ih =>
      simp [List.foldl_cons, ih, spanRecordField_properties,
        List.flatMap_cons, List.append_assoc]

theorem foldl_spanRecordField_events (fields : List Field) (sp : FSpan) :
    (fields.foldl spanRecordField sp).events = sp.events := by
  induction fields generalizing sp with
  | nil => rfl
  | cons f fs ih => simp [List.foldl_cons, ih, spanRecordField_events]

/-- Whether a span is the no-op default span (construction-path view). -/
def FSpan.isNoop : FSpan → Bool
  | .noop _ _ => true
  | _ => false

theorem FSpan.isNoop_eq (sp : FSpan) (h : sp.isNoop = true) :
    sp = .noop sp.properties sp.events := by
  cases sp <;> simp_all [FSpan.isNoop, FSpan.properties, FSpan.events]

theorem FSpan.with_property_isNoop (sp : FSpan) (p : Property) :
    (sp.with_property p).isNoop = sp.isNoop := by
  cases sp <;> rfl

theorem FSpan.with_properties_isNoop (sp : FSpan) (ps : List Property) :
    (sp.with_properties ps).isNoop = sp.isNoop := by
  cases sp <;> rfl

theorem spanRecordField_isNoop (sp : FSpan) (f : Field) :
    (spanRecordField sp f).isNoop = sp.isNoop := by
  obtain ⟨n, v⟩ := f
  unfold spanRecordField
  cases v <;> simp [FSpan.with_property_isNoop]

theorem foldl_spanRecordField_isNoop (fields : List Field) (sp : FSpan) :
    (fields.foldl spanRecordField sp).isNoop = sp.isNoop := by
  induction fields generalizing sp with
  | nil => rfl
  | cons f fs ih => simp [List.foldl_cons, ih, spanRecordField_isNoop]

theorem foldl_eventNameFinderStep (fields : List Field) (acc : Option String) :
    fields.foldl eventNameFinderStep acc =
      ((fields.reverse.find? fun f => f.name == "message").map
        fun f => nameFinderText f.value).or acc := by
  induction fields generalizing acc with
  | nil => simp
  | cons f fs ih =>
      simp only [List.foldl_cons, List.reverse_cons, ih, List.find?_append]
      cases hfs : fs.reverse.find? fun f => f.name == "message" with
      | some g => simp
      | none =>
          simp only [Option.none_or, Option.map]
          unfold eventNameFinderStep
          by_cases h : f.name = "message"
          · have hb : (f.name == "message") = true := beq_iff_eq.mpr h
            simp [h, hb, List.find?]
          · have hb : (f.name == "message") = false :=
              beq_eq_false_iff_ne.mpr h
            simp [h, hb, List.find?]

/-- The `EventNameFinder` scan yields the value recorded from the last
field named "message", since each handler overwrites earlier findings. -/
theorem findEventName_eq_last (fields : List Field) :
    findEventName fields =
      (fields.reverse.find? fun f => f.name == "message").map
        fun f => nameFinderText f.value := by
  simp [findEventName, foldl_eventNameFinderStep]

theorem buildFastraceEvent_name (self : FastraceCompatLayer)
    (event : TracingEvent) :
    (buildFastraceEvent self event).name =
      (findEventName event.fields).getD event.metadata.name := by
  unfold buildFastraceEvent
  cases self.location <;>
    cases event.metadata.file <;>
      cases event.metadata.module_path <;>
        cases event.metadata.line <;>
          simp [foldl_eventRecordField_name, FEvent.with_property,
            FEvent.with_properties, FEvent.new]

theorem buildFastraceEvent_properties (self : FastraceCompatLayer)
    (event : TracingEvent) :
    (buildFastraceEvent self event).properties =
      ("level", event.metadata.level) :: ("target", event.metadata.target) ::
        (eventLocProps self event.metadata ++
          event.fields.flatMap eventFieldDelta) := by
  unfold buildFastraceEvent eventLocProps
  cases self.location <;>
    cases event.metadata.file <;>
      cases event.metadata.module_path <;>
        cases event.metadata.line <;>
          simp [foldl_eventRecordField_properties, FEvent.with_property,
            FEvent.with_properties, FEvent.new]

/-! ### Claim theorems -/

/-- C1: recording an error-typed field named `F` through the span
attribute visitor (any `F`, including "message"), or through the event
visitor when `F ≠ "message"`, appends exactly four properties, in
order: `(F, display text)`, `("exception.message", display text)`,
`(F ++ ".chain", debug-list of the causal chain)`,
`("exception.stacktrace", the same debug-list)`; the chain starts at the
error's own `source()` and so excludes the top-level error: a chain with
two underlying links "A" then "B" is the list ["A", "B"]. -/
theorem error_field_expansion (F : String) (e : RustError) (sp : FSpan)
    (ev : FEvent) :
    (spanRecordField sp ⟨F, .vError e⟩).properties = sp.properties ++
      [(F, e.display), ("exception.message", e.display),
       (F ++ ".chain", rustDebugList (errorChain e)),
       ("exception.stacktrace", rustDebugList (errorChain e))] ∧
    (F ≠ "message" →
      (eventRecordField ev ⟨F, .vError e⟩).properties = ev.properties ++
        [(F, e.display), ("exception.message", e.display),
         (F ++ ".chain", rustDebugList (errorChain e)),
         ("exception.stacktrace", rustDebugList (errorChain e))]) ∧
    (∀ d : String,
      errorChain (.withSource d (.withSource "A" (.last "B"))) =
        ["A", "B"]) := by
  refine ⟨?_, fun hF => ?_, fun d => rfl⟩
  · rw [spanRecordField_properties]; rfl
  · rw [eventRecordField_properties]
    simp [eventFieldDelta, hF, spanFieldDelta]

/-- C1 witness: a concrete error field with chain "A", "B" expands to
exactly the four expected properties — through the span attribute
visitor both for the name "message" and for "cause", and through the
event visitor for the non-reserved name "cause". -/
theorem error_field_expansion_witness :
    (spanRecordField spanDefault
        ⟨"message", .vError (.withSource "top" (.withSource "A" (.last "B")))⟩).properties =
      [("message", "top"), ("exception.message", "top"),
       ("message.chain", "[\"A\", \"B\"]"),
       ("exception.stacktrace", "[\"A\", \"B\"]")] ∧
    (spanRecordField spanDefault
        ⟨"cause", .vError (.withSource "top" (.withSource "A" (.last "B")))⟩).properties =
      [("cause", "top"), ("exception.message", "top"),
       ("cause.chain", "[\"A\", \"B\"]"),
       ("exception.stacktrace", "[\"A\", \"B\"]")] ∧
    "cause" ≠ "message" ∧
    (eventRecordField (FEvent.new "n")
        ⟨"cause", .vError (.withSource "top" (.withSource "A" (.last "B")))⟩).properties =
      [("cause", "top"), ("exception.message", "top"),
       ("cause.chain", "[\"A\", \"B\"]"),
       ("exception.stacktrace", "[\"A\", \"B\"]")] :=
  have H1 := error_field_expansion "message"
    (.withSource "top" (.withSource "A" (.last "B"))) spanDefault
    (FEvent.new "n")
  have H2 := error_field_expansion "cause"
    (.withSource "top" (.withSource "A" (.last "B"))) spanDefault
    (FEvent.new "n")
  ⟨H1.1.trans (by decide), H2.1.trans (by decide), by decide,
    (H2.2.1 (by decide)).trans (by decide)⟩

/-- C2 counterexample: with an explicit parent identifier (99) that the
registry cannot resolve, while the current span (1) holds a bridged
record and an ambient local parent is active, the bridge mints a fresh
root — it does not resolve as a contextual span would (which yields a
child of the current span's record), so a declared-but-unresolvable
parent is not treated like "no explicit parent". -/
theorem unresolved_explicit_parent_cex :
    new_fastrace_span
        ⟨⟨"s", "t", "INFO", none, none, none⟩, .explicit 99, []⟩
        ⟨[(1, some (FSpan.root "p" 7 [] []))], some 1, true, 42, 0, none⟩ =
      FSpan.root "s" 42 [] [] ∧
    new_fastrace_span
        ⟨⟨"s", "t", "INFO", none, none, none⟩, .current, []⟩
        ⟨[(1, some (FSpan.root "p" 7 [] []))], some 1, true, 42, 0, none⟩ =
      FSpan.child "s" (FSpan.root "p" 7 [] []) [] [] ∧
    FSpan.root "s" 42 [] [] ≠
      FSpan.child "s" (FSpan.root "p" 7 [] []) [] [] := by
  exact ⟨by decide, by decide, by decide⟩

/-- C2 (amended): a span-creation notification whose explicit parent
identifier the host framework cannot resolve to a live span mints a
fresh root span with a freshly generated trace identity (the contextual
check fails for explicit-parent spans, so resolution takes the root
branch), rather than demoting to contextual resolution. -/
theorem unresolved_explicit_parent_mints_root (attrs : Attributes)
    (ctx : Ctx) (pid : Nat) (hp : attrs.parent = .explicit pid)
    (hr : ctx.span pid = none) :
    new_fastrace_span attrs ctx =
      FSpan.root attrs.metadata.name ctx.freshTraceId [] [] := by
  unfold new_fastrace_span contextualOrRootSpan
  simp [hp, hr, Parent.parentId, Parent.isContextual]

/-- C2 witness: the amended behaviour at the counterexample's input. -/
theorem unresolved_explicit_parent_mints_root_witness :
    (Attributes.mk ⟨"s", "t", "INFO", none, none, none⟩ (.explicit 99)
        []).parent = .explicit 99 ∧
    Ctx.span ⟨[(1, some (FSpan.root "p" 7 [] []))], some 1, true, 42, 0,
        none⟩ 99 = none ∧
    new_fastrace_span
        ⟨⟨"s", "t", "INFO", none, none, none⟩, .explicit 99, []⟩
        ⟨[(1, some (FSpan.root "p" 7 [] []))], some 1, true, 42, 0, none⟩ =
      FSpan.root "s" 42 [] [] :=
  ⟨rfl, by decide,
    unresolved_explicit_parent_mints_root _ _ 99 rfl (by decide)⟩

/-- C3: a field named "message" of any of the six kinds never produces a
property on the bridged event (for the error kind this suppresses all
four expansion keys, since the whole handler returns early); the name
scan records the textual value of the last field named "message" seen
(each handler overwrites earlier findings), and the bridged event's name
is that value, or the event's declared metadata name when absent. -/
theorem message_field_reserved :
    (∀ (ev : FEvent) (v : FieldValue), eventRecordField ev ⟨"message", v⟩ = ev) ∧
    (∀ fields : List Field,
      findEventName fields =
        (fields.reverse.find? fun f => f.name == "message").map
          fun f => nameFinderText f.value) ∧
    (∀ (self : FastraceCompatLayer) (event : TracingEvent),
      (buildFastraceEvent self event).name =
        (findEventName event.fields).getD event.metadata.name) := by
  refine ⟨fun ev v => ?_, findEventName_eq_last, buildFastraceEvent_name⟩
  simp [eventRecordField]

/-- C4: contextual parent resolution tries, in order: the current span's
bridged record (child via the explicit-parent construction path), then
the ambient local parent (child via the dedicated local-parent path),
then a fresh root with a freshly generated trace identity; and an
explicitly-declared root always mints a fresh root regardless of the
active or ambient state. -/
theorem contextual_parent_resolution :
    (∀ (attrs : Attributes) (ctx : Ctx) (cid : Nat) (p : FSpan),
      attrs.parent = .current → ctx.lookup_current = some (cid, some p) →
      new_fastrace_span attrs ctx =
        FSpan.child attrs.metadata.name p [] []) ∧
    (∀ (attrs : Attributes) (ctx : Ctx),
      attrs.parent = .current →
      ctx.lookup_current.bind (fun se => se.2) = none →
      ctx.localParentActive = true →
      new_fastrace_span attrs ctx =
        FSpan.localChild attrs.metadata.name [] []) ∧
    (∀ (attrs : Attributes) (ctx : Ctx),
      attrs.parent = .current →
      ctx.lookup_current.bind (fun se => se.2) = none →
      ctx.localParentActive = false →
      new_fastrace_span attrs ctx =
        FSpan.root attrs.metadata.name ctx.freshTraceId [] []) ∧
    (∀ (attrs : Attributes) (ctx : Ctx),
      attrs.parent = .root →
      new_fastrace_span attrs ctx =
        FSpan.root attrs.metadata.name ctx.freshTraceId [] []) := by
  refine ⟨?_, ?_, ?_, ?_⟩
  · intro attrs ctx cid p hp hcur
    unfold new_fastrace_span contextualOrRootSpan
    simp [hp, hcur, Parent.parentId, Parent.isContextual, Option.orElse]
  · intro attrs ctx hp hcur hl
    unfold new_fastrace_span contextualOrRootSpan
    simp only [hp, Parent.parentId, Parent.isContextual]
    cases hc : ctx.lookup_current with
    | none => simp [hc, hl, Option.orElse]
    | some se =>
        rw [hc] at hcur
        cases hse : se.2 with
        | none => simp [hc, hse, hl, Option.orElse]
        | some p => simp [hse] at hcur
  · intro attrs ctx hp hcur hl
    unfold new_fastrace_span contextualOrRootSpan
    simp only [hp, Parent.parentId, Parent.isContextual]
    cases hc : ctx.lookup_current with
    | none => simp [hc, hl, Option.orElse]
    | some se =>
        rw [hc] at hcur
        cases hse : se.2 with
        | none => simp [hc, hse, hl, Option.orElse]
        | some p => simp [hse] at hcur
  · intro attrs ctx hp
    unfold new_fastrace_span contextualOrRootSpan
    simp [hp, Parent.parentId, Parent.isContextual]

/-- C4 witness: the four resolution outcomes at concrete inputs. -/
theorem contextual_parent_resolution_witness :
    new_fastrace_span ⟨⟨"s", "t", "INFO", none, none, none⟩, .current, []⟩
        ⟨[(1, some (FSpan.root "p" 7 [] []))], some 1, true, 42, 0, none⟩ =
      FSpan.child "s" (FSpan.root "p" 7 [] []) [] [] ∧
    new_fastrace_span ⟨⟨"s", "t", "INFO", none, none, none⟩, .current, []⟩
        ⟨[(1, none)], some 1, true, 42, 0, none⟩ =
      FSpan.localChild "s" [] [] ∧
    new_fastrace_span ⟨⟨"s", "t", "INFO", none, none, none⟩, .current, []⟩
        ⟨[(1, none)], some 1, false, 42, 0, none⟩ =
      FSpan.root "s" 42 [] [] ∧
    new_fastrace_span ⟨⟨"s", "t", "INFO", none, none, none⟩, .root, []⟩
        ⟨[(1, some (FSpan.root "p" 7 [] []))], some 1, true, 42, 0, none⟩ =
      FSpan.root "s" 42 [] [] :=
  ⟨contextual_parent_resolution.1
      ⟨⟨"s", "t", "INFO", none, none, none⟩, .current, []⟩
      ⟨[(1, some (FSpan.root "p" 7 [] []))], some 1, true, 42, 0, none⟩
      1 (FSpan.root "p" 7 [] []) rfl (by decide),
    contextual_parent_resolution.2.1
      ⟨⟨"s", "t", "INFO", none, none, none⟩, .current, []⟩
      ⟨[(1, none)], some 1, true, 42, 0, none⟩ rfl (by decide) rfl,
    contextual_parent_resolution.2.2.1
      ⟨⟨"s", "t", "INFO", none, none, none⟩, .current, []⟩
      ⟨[(1, none)], some 1, false, 42, 0, none⟩ rfl (by decide) rfl,
    contextual_parent_resolution.2.2.2
      ⟨⟨"s", "t", "INFO", none, none, none⟩, .root, []⟩
      ⟨[(1, some (FSpan.root "p" 7 [] []))], some 1, true, 42, 0, none⟩ rfl⟩

theorem mem_spanEnrichProps_level (self : FastraceCompatLayer)
    (attrs : Attributes) (ctx : Ctx) (v : String) :
    ("level", v) ∈ spanEnrichProps self attrs ctx ↔
      (self.with_level = true ∧ v = attrs.metadata.level) := by
  unfold spanEnrichProps
  cases self.location <;> cases self.with_threads <;>
    cases self.with_level <;> cases attrs.metadata.file <;>
      cases attrs.metadata.module_path <;> cases attrs.metadata.line <;>
        cases ctx.threadName <;> simp_all

theorem mem_spanEnrichProps_threadId (self : FastraceCompatLayer)
    (attrs : Attributes) (ctx : Ctx) (v : String) :
    ("thread.id", v) ∈ spanEnrichProps self attrs ctx ↔
      (self.with_threads = true ∧ v = toString ctx.threadId) := by
  unfold spanEnrichProps
  cases self.location <;> cases self.with_threads <;>
    cases self.with_level <;> cases attrs.metadata.file <;>
      cases attrs.metadata.module_path <;> cases attrs.metadata.line <;>
        cases ctx.threadName <;> simp_all

theorem mem_spanEnrichProps_threadName (self : FastraceCompatLayer)
    (attrs : Attributes) (ctx : Ctx) (v : String) :
    ("thread.name", v) ∈ spanEnrichProps self attrs ctx ↔
      (self.with_threads = true ∧ ctx.threadName = some v) := by
  unfold spanEnrichProps
  cases self.location <;> cases self.with_threads <;>
    cases self.with_level <;> cases attrs.metadata.file <;>
      cases attrs.metadata.module_path <;> cases attrs.metadata.line <;>
        cases ctx.threadName <;> simp_all [eq_comm]

theorem mem_spanEnrichProps_filepath (self : FastraceCompatLayer)
    (attrs : Attributes) (ctx : Ctx) (v : String) :
    ("code.filepath", v) ∈ spanEnrichProps self attrs ctx ↔
      (self.location = true ∧ attrs.metadata.file = some v) := by
  unfold spanEnrichProps
  cases self.location <;> cases self.with_threads <;>
    cases self.with_level <;> cases attrs.metadata.file <;>
      cases attrs.metadata.module_path <;> cases attrs.metadata.line <;>
        cases ctx.threadName <;> simp_all [eq_comm]

theorem eventLocProps_keys (self : FastraceCompatLayer) (md : Metadata)
    (k v : String) (h : (k, v) ∈ eventLocProps self md) :
    k = "code.filepath" ∨ k = "code.namespace" ∨ k = "code.lineno" := by
  unfold eventLocProps at h
  rcases hf : md.file with _ | f <;> rcases hm : md.module_path with _ | m <;>
    rcases hl : md.line with _ | l <;> rw [hf, hm, hl] at h <;>
      split at h <;> (try simp_all) <;> tauto

/-- C5: every bridged event receives the two baseline properties
("level", textual severity) and ("target", declared origin) first,
unconditionally and before any field-derived properties; the per-span
"level" enrichment property is emitted exactly when `with_level` is set;
with the default configuration (location true, threads true, level
false) spans carry location/thread properties but no "level" property,
while events still carry "level". -/
theorem event_baseline_and_span_level_gating :
    (∀ (self : FastraceCompatLayer) (event : TracingEvent),
      (buildFastraceEvent self event).properties =
        ("level", event.metadata.level) ::
          ("target", event.metadata.target) ::
            (eventLocProps self event.metadata ++
              event.fields.flatMap eventFieldDelta)) ∧
    (∀ (self : FastraceCompatLayer) (attrs : Attributes) (ctx : Ctx)
        (v : String),
      ("level", v) ∈ spanEnrichProps self attrs ctx ↔
        (self.with_level = true ∧ v = attrs.metadata.level)) ∧
    FastraceCompatLayer.new =
      { location := true, with_threads := true, with_level := false } ∧
    (∀ (attrs : Attributes) (ctx : Ctx),
      ("thread.id", toString ctx.threadId) ∈
        spanEnrichProps .new attrs ctx) ∧
    (∀ (attrs : Attributes) (ctx : Ctx) (f : String),
      attrs.metadata.file = some f →
      ("code.filepath", f) ∈ spanEnrichProps .new attrs ctx) ∧
    (∀ (attrs : Attributes) (ctx : Ctx) (v : String),
      ("level", v) ∉ spanEnrichProps .new attrs ctx) := by
  refine ⟨buildFastraceEvent_properties, mem_spanEnrichProps_level, rfl,
    ?_, ?_, ?_⟩
  · intro attrs ctx
    exact (mem_spanEnrichProps_threadId _ _ _ _).mpr ⟨rfl, rfl⟩
  · intro attrs ctx f hf
    exact (mem_spanEnrichProps_filepath _ _ _ _).mpr ⟨rfl, hf⟩
  · intro attrs ctx v h
    exact absurd ((mem_spanEnrichProps_level _ _ _ _).mp h).1 (by decide)

/-- C5 witness: the default-configuration span enrichment for a concrete
notification carries location and thread properties but no "level",
and a concrete bridged event still carries the "level" baseline. -/
theorem event_baseline_and_span_level_gating_witness :
    (buildFastraceEvent .new
        ⟨⟨"evt", "tgt", "INFO", none, none, none⟩, .current, []⟩).properties =
      ("level", "INFO") :: ("target", "tgt") ::
        (eventLocProps .new ⟨"evt", "tgt", "INFO", none, none, none⟩ ++
          ([] : List Field).flatMap eventFieldDelta) ∧
    (Attributes.mk ⟨"s", "t", "INFO", some "f.rs", none, none⟩ .root
        []).metadata.file = some "f.rs" ∧
    ("code.filepath", "f.rs") ∈
      spanEnrichProps .new ⟨⟨"s", "t", "INFO", some "f.rs", none, none⟩,
        .root, []⟩ ⟨[], none, false, 0, 3, none⟩ ∧
    ("thread.id", toString 3) ∈
      spanEnrichProps .new ⟨⟨"s", "t", "INFO", some "f.rs", none, none⟩,
        .root, []⟩ ⟨[], none, false, 0, 3, none⟩ ∧
    ("level", "INFO") ∉
      spanEnrichProps .new ⟨⟨"s", "t", "INFO", some "f.rs", none, none⟩,
        .root, []⟩ ⟨[], none, false, 0, 3, none⟩ :=
  ⟨event_baseline_and_span_level_gating.1 .new
      ⟨⟨"evt", "tgt", "INFO", none, none, none⟩, .current, []⟩,
    rfl,
    event_baseline_and_span_level_gating.2.2.2.2.1
      ⟨⟨"s", "t", "INFO", some "f.rs", none, none⟩, .root, []⟩
      ⟨[], none, false, 0, 3, none⟩ "f.rs" rfl,
    event_baseline_and_span_level_gating.2.2.2.1
      ⟨⟨"s", "t", "INFO", some "f.rs", none, none⟩, .root, []⟩
      ⟨[], none, false, 0, 3, none⟩,
    event_baseline_and_span_level_gating.2.2.2.2.2
      ⟨⟨"s", "t", "INFO", some "f.rs", none, none⟩, .root, []⟩
      ⟨[], none, false, 0, 3, none⟩ "INFO"⟩

/-- C6: a field update for a live span with no bridged record, and an
event whose owning span does not resolve or carries no bridged record,
are silent no-ops: the state is returned unchanged (so no property is
recorded, no event is emitted, and no error is raised). -/
theorem missing_record_silently_absorbed :
    (∀ (id : Nat) (values : List Field) (ctx : Ctx),
      ctx.span id = some none → on_record id values ctx = .ok ctx) ∧
    (∀ (self : FastraceCompatLayer) (event : TracingEvent) (ctx : Ctx),
      resolveEventSpan ctx event = none → on_event self event ctx = ctx) ∧
    (∀ (self : FastraceCompatLayer) (event : TracingEvent) (ctx : Ctx)
        (id : Nat),
      resolveEventSpan ctx event = some id → ctx.span id = some none →
      on_event self event ctx = ctx) := by
  refine ⟨?_, ?_, ?_⟩
  · intro id values ctx h
    simp [on_record, h]
  · intro self event ctx h
    simp [on_event, h]
  · intro self event ctx id h1 h2
    simp [on_event, h1, h2]

/-- C6 witness: concrete no-op updates and events. -/
theorem missing_record_silently_absorbed_witness :
    Ctx.span ⟨[(1, none)], none, false, 0, 0, none⟩ 1 = some none ∧
    on_record 1 [⟨"k", .vStr "v"⟩] ⟨[(1, none)], none, false, 0, 0, none⟩ =
      .ok ⟨[(1, none)], none, false, 0, 0, none⟩ ∧
    resolveEventSpan ⟨[(1, none)], none, false, 0, 0, none⟩
      ⟨⟨"evt", "tgt", "INFO", none, none, none⟩, .current, []⟩ = none ∧
    on_event .new ⟨⟨"evt", "tgt", "INFO", none, none, none⟩, .current, []⟩
        ⟨[(1, none)], none, false, 0, 0, none⟩ =
      ⟨[(1, none)], none, false, 0, 0, none⟩ ∧
    resolveEventSpan ⟨[(1, none)], some 1, false, 0, 0, none⟩
      ⟨⟨"evt", "tgt", "INFO", none, none, none⟩, .current, []⟩ = some 1 ∧
    on_event .new ⟨⟨"evt", "tgt", "INFO", none, none, none⟩, .current, []⟩
        ⟨[(1, none)], some 1, false, 0, 0, none⟩ =
      ⟨[(1, none)], some 1, false, 0, 0, none⟩ :=
  ⟨by decide,
    missing_record_silently_absorbed.1 1 [⟨"k", .vStr "v"⟩]
      ⟨[(1, none)], none, false, 0, 0, none⟩ (by decide),
    by decide,
    missing_record_silently_absorbed.2.1 .new
      ⟨⟨"evt", "tgt", "INFO", none, none, none⟩, .current, []⟩
      ⟨[(1, none)], none, false, 0, 0, none⟩ (by decide),
    by decide,
    missing_record_silently_absorbed.2.2 .new
      ⟨⟨"evt", "tgt", "INFO", none, none, none⟩, .current, []⟩
      ⟨[(1, none)], some 1, false, 0, 0, none⟩ 1 (by decide) (by decide)⟩

/-- C7: a span-creation notification for an identifier whose extension
storage already holds a bridged record aborts the notification loudly
(the extension-storage insert is a fatal assertion), leaving no path
that replaces the existing record. -/
theorem duplicate_span_creation_aborts (self : FastraceCompatLayer)
    (attrs : Attributes) (id : Nat) (ctx : Ctx) (r : FSpan)
    (h : ctx.span id = some (some r)) :
    on_new_span self attrs id ctx =
      .error "extension already present for this span" := by
  simp [on_new_span, h]

/-- C7 witness: a concrete duplicate creation aborts. -/
theorem duplicate_span_creation_aborts_witness :
    Ctx.span ⟨[(1, some (FSpan.root "p" 7 [] []))], none, false, 0, 0,
        none⟩ 1 = some (some (FSpan.root "p" 7 [] [])) ∧
    on_new_span .new ⟨⟨"s", "t", "INFO", none, none, none⟩, .root, []⟩ 1
        ⟨[(1, some (FSpan.root "p" 7 [] []))], none, false, 0, 0, none⟩ =
      .error "extension already present for this span" :=
  ⟨by decide,
    duplicate_span_creation_aborts .new
      ⟨⟨"s", "t", "INFO", none, none, none⟩, .root, []⟩ 1
      ⟨[(1, some (FSpan.root "p" 7 [] []))], none, false, 0, 0, none⟩
      (FSpan.root "p" 7 [] []) (by decide)⟩

theorem foldl_spanRecordField_noop (fields : List Field) (ps : List Property) :
    fields.foldl spanRecordField (FSpan.noop ps []) =
      FSpan.noop (ps ++ fields.flatMap spanFieldDelta) [] := by
  induction fields generalizing ps with
  | nil => simp
  | cons f fs ih =>
      have hstep : spanRecordField (FSpan.noop ps []) f =
          FSpan.noop (ps ++ spanFieldDelta f) [] := by
        obtain ⟨n, v⟩ := f
        cases v <;>
          simp [spanRecordField, spanFieldDelta, FSpan.with_property,
            List.append_assoc]
      simp [List.foldl_cons, hstep, ih, List.flatMap_cons, List.append_assoc]

/-- C8 counterexample: a field update carrying an error-typed field
appends four properties at once, so the property count after two updates
of the same field name is the count after one update plus four — not
plus one as claimed. -/
theorem double_update_plus_one_cex :
    (spanRecordField (spanRecordField (FSpan.root "s" 5 [] [])
        ⟨"cause", .vError (.withSource "E" (.last "A"))⟩)
        ⟨"cause", .vError (.withSource "E" (.last "A"))⟩).properties.length
      = 8 ∧
    (spanRecordField (FSpan.root "s" 5 [] [])
        ⟨"cause", .vError (.withSource "E" (.last "A"))⟩).properties.length
      = 4 ∧
    on_record 1 [⟨"cause", .vError (.withSource "E" (.last "A"))⟩]
        ⟨[(1, some (FSpan.root "s" 5 [] []))], none, false, 0, 0, none⟩ =
      .ok ⟨[(1, some (spanRecordField (FSpan.root "s" 5 [] [])
          ⟨"cause", .vError (.withSource "E" (.last "A"))⟩))], none,
        false, 0, 0, none⟩ ∧
    (8 : Nat) ≠ 4 + 1 :=
  ⟨by decide, by decide, rfl, by decide⟩

/-- C8 (amended): a field update appends rather than overwrites: each
update of a field appends that field's property batch after all existing
properties, preserving every prior (key, value) occurrence and their
order, so the property count after two updates of the same field equals
the count after one update plus the size of the field's batch — one
property for the five plain kinds, four for an error-typed field. -/
theorem double_update_appends (sp : FSpan) (f : Field) (ctx : Ctx)
    (id : Nat) (sp' : FSpan) (h : ctx.span id = some (some sp')) :
    (spanRecordField sp f).properties = sp.properties ++ spanFieldDelta f ∧
    (spanRecordField (spanRecordField sp f) f).properties =
      (spanRecordField sp f).properties ++ spanFieldDelta f ∧
    (spanRecordField (spanRecordField sp f) f).properties.length =
      (spanRecordField sp f).properties.length +
        (spanFieldDelta f).length ∧
    ((∀ e : RustError, f.value ≠ .vError e) →
      (spanFieldDelta f).length = 1) ∧
    on_record id [f] ctx =
      .ok (ctx.setSpanExt id (spanRecordField sp' f)) := by
  refine ⟨spanRecordField_properties sp f,
    spanRecordField_properties _ f, ?_, ?_, ?_⟩
  · rw [spanRecordField_properties]; simp
  · intro hne
    obtain ⟨n, v⟩ := f
    cases v with
    | vBool b => rfl
    | vF64 t => rfl
    | vI64 m => rfl
    | vStr s => rfl
    | vDebug t => rfl
    | vError e => exact absurd rfl (hne e)
  · simp [on_record, h, List.foldl]

/-- C8 witness: the amended behaviour at a concrete non-error field. -/
theorem double_update_appends_witness :
    Ctx.span ⟨[(1, some (FSpan.root "s" 5 [] []))], none, false, 0, 0,
        none⟩ 1 = some (some (FSpan.root "s" 5 [] [])) ∧
    (spanRecordField (FSpan.root "s" 5 [("a", "b")] [])
        ⟨"k", .vStr "v"⟩).properties =
      [("a", "b")] ++ spanFieldDelta ⟨"k", .vStr "v"⟩ ∧
    (spanRecordField (spanRecordField (FSpan.root "s" 5 [("a", "b")] [])
        ⟨"k", .vStr "v"⟩) ⟨"k", .vStr "v"⟩).properties.length =
      (spanRecordField (FSpan.root "s" 5 [("a", "b")] [])
        ⟨"k", .vStr "v"⟩).properties.length + 1 ∧
    on_record 1 [⟨"k", .vStr "v"⟩]
        ⟨[(1, some (FSpan.root "s" 5 [] []))], none, false, 0, 0, none⟩ =
      .ok (Ctx.setSpanExt
        ⟨[(1, some (FSpan.root "s" 5 [] []))], none, false, 0, 0, none⟩ 1
        (spanRecordField (FSpan.root "s" 5 [] []) ⟨"k", .vStr "v"⟩)) :=
  have H := double_update_appends (FSpan.root "s" 5 [("a", "b")] [])
    ⟨"k", .vStr "v"⟩
    ⟨[(1, some (FSpan.root "s" 5 [] []))], none, false, 0, 0, none⟩ 1
    (FSpan.root "s" 5 [] []) (by decide)
  ⟨by decide, H.1, H.2.2.1, H.2.2.2.2⟩

/-- C9: a span-creation notification whose explicit parent resolves to a
live registry span carrying no bridged record stores a default (no-op)
destination span: parent resolution returns `Span::default()` — neither
a child of an existing span, nor a fresh root, nor the contextual path —
and the record stored for the new identifier is that no-op span
(carrying only accumulated properties, no events). -/
theorem explicit_parent_without_record_default
    (self : FastraceCompatLayer) (attrs : Attributes) (ctx : Ctx)
    (pid id : Nat) (hp : attrs.parent = .explicit pid)
    (hr : ctx.span pid = some none) (hid : ctx.span id = some none) :
    new_fastrace_span attrs ctx = spanDefault ∧
    on_new_span self attrs id ctx =
      .ok (ctx.setSpanExt id (.noop
        (spanEnrichProps self attrs ctx ++
          attrs.fields.flatMap spanFieldDelta) [])) := by
  have h1 : new_fastrace_span attrs ctx = spanDefault := by
    unfold new_fastrace_span
    simp [hp, hr, Parent.parentId]
  refine ⟨h1, ?_⟩
  have h2 : spanDefault.with_properties (spanEnrichProps self attrs ctx) =
      FSpan.noop (spanEnrichProps self attrs ctx) [] := rfl
  simp only [on_new_span, hid, h1, h2, foldl_spanRecordField_noop]

/-- C9 witness: concrete resolvable-but-recordless explicit parent. -/
theorem explicit_parent_without_record_default_witness :
    (Attributes.mk ⟨"s", "t", "INFO", none, none, none⟩ (.explicit 2)
        []).parent = .explicit 2 ∧
    Ctx.span ⟨[(1, none), (2, none)], none, false, 0, 9, none⟩ 2 =
      some none ∧
    Ctx.span ⟨[(1, none), (2, none)], none, false, 0, 9, none⟩ 1 =
      some none ∧
    new_fastrace_span ⟨⟨"s", "t", "INFO", none, none, none⟩, .explicit 2,
        []⟩ ⟨[(1, none), (2, none)], none, false, 0, 9, none⟩ =
      spanDefault ∧
    on_new_span .new ⟨⟨"s", "t", "INFO", none, none, none⟩, .explicit 2,
        []⟩ 1 ⟨[(1, none), (2, none)], none, false, 0, 9, none⟩ =
      .ok (Ctx.setSpanExt ⟨[(1, none), (2, none)], none, false, 0, 9,
        none⟩ 1 (.noop (spanEnrichProps .new
          ⟨⟨"s", "t", "INFO", none, none, none⟩, .explicit 2, []⟩
          ⟨[(1, none), (2, none)], none, false, 0, 9, none⟩ ++
        List.flatMap [] spanFieldDelta) [])) :=
  have H := explicit_parent_without_record_default .new
    ⟨⟨"s", "t", "INFO", none, none, none⟩, .explicit 2, []⟩
    ⟨[(1, none), (2, none)], none, false, 0, 9, none⟩ 2 1 rfl
    (by decide) (by decide)
  ⟨rfl, by decide, by decide, H.1, H.2⟩

/-- C10 counterexample: an event whose own field is named "thread.id"
produces a "thread.id" property on the bridged event, so a bridged
event can carry such a property (copied from its fields), contradicting
the claim that no bridged event ever receives one. -/
theorem event_thread_property_cex :
    ("thread.id", "77") ∈ (buildFastraceEvent .new
      ⟨⟨"evt", "tgt", "INFO", none, none, none⟩, .current,
        [⟨"thread.id", .vStr "77"⟩]⟩).properties := by
  decide

/-- C10 (amended): thread-identity enrichment applies only to span
creation: "thread.id" (and "thread.name", when the thread is named)
appear in the span enrichment batch exactly when `with_threads` is set;
event construction is unaffected by the toggles other than location; and
the bridge itself never attaches "thread.id" or "thread.name" to a
bridged event — such a property can only be copied from the event's own
fields. -/
theorem thread_enrichment_spans_only :
    (∀ (self : FastraceCompatLayer) (attrs : Attributes) (ctx : Ctx)
        (v : String),
      ("thread.id", v) ∈ spanEnrichProps self attrs ctx ↔
        (self.with_threads = true ∧ v = toString ctx.threadId)) ∧
    (∀ (self : FastraceCompatLayer) (attrs : Attributes) (ctx : Ctx)
        (v : String),
      ("thread.name", v) ∈ spanEnrichProps self attrs ctx ↔
        (self.with_threads = true ∧ ctx.threadName = some v)) ∧
    (∀ (c1 c2 : FastraceCompatLayer) (event : TracingEvent),
      c1.location = c2.location →
      buildFastraceEvent c1 event = buildFastraceEvent c2 event) ∧
    (∀ (self : FastraceCompatLayer) (event : TracingEvent) (v : String),
      ("thread.id", v) ∈ (buildFastraceEvent self event).properties →
      ("thread.id", v) ∈ event.fields.flatMap eventFieldDelta) ∧
    (∀ (self : FastraceCompatLayer) (event : TracingEvent) (v : String),
      ("thread.name", v) ∈ (buildFastraceEvent self event).properties →
      ("thread.name", v) ∈ event.fields.flatMap eventFieldDelta) := by
  refine ⟨mem_spanEnrichProps_threadId, mem_spanEnrichProps_threadName,
    ?_, ?_, ?_⟩
  · intro c1 c2 event h
    obtain ⟨l1, t1, v1⟩ := c1
    obtain ⟨l2, t2, v2⟩ := c2
    simp only at h
    subst h
    rfl
  · intro self event v h
    rw [buildFastraceEvent_properties] at h
    rcases List.mem_cons.mp h with h1 | h
    · simp at h1
    rcases List.mem_cons.mp h with h1 | h
    · simp at h1
    rcases List.mem_append.mp h with h1 | h1
    · rcases eventLocProps_keys self event.metadata _ _ h1 with hk | hk | hk <;>
        simp at hk
    · exact h1
  · intro self event v h
    rw [buildFastraceEvent_properties] at h
    rcases List.mem_cons.mp h with h1 | h
    · simp at h1
    rcases List.mem_cons.mp h with h1 | h
    · simp at h1
    rcases List.mem_append.mp h with h1 | h1
    · rcases eventLocProps_keys self event.metadata _ _ h1 with hk | hk | hk <;>
        simp at hk
    · exact h1

/-- C10 witness: the amended behaviour at concrete inputs. -/
theorem thread_enrichment_spans_only_witness :
    ("thread.id", "3") ∈ spanEnrichProps .new
      ⟨⟨"s", "t", "INFO", none, none, none⟩, .root, []⟩
      ⟨[], none, false, 0, 3, none⟩ ∧
    (FastraceCompatLayer.mk true true false).location =
      (FastraceCompatLayer.mk true false true).location ∧
    buildFastraceEvent (FastraceCompatLayer.mk true true false)
        ⟨⟨"evt", "tgt", "INFO", none, none, none⟩, .current,
          [⟨"thread.id", .vStr "77"⟩]⟩ =
      buildFastraceEvent (FastraceCompatLayer.mk true false true)
        ⟨⟨"evt", "tgt", "INFO", none, none, none⟩, .current,
          [⟨"thread.id", .vStr "77"⟩]⟩ ∧
    ("thread.id", "77") ∈ (buildFastraceEvent .new
      ⟨⟨"evt", "tgt", "INFO", none, none, none⟩, .current,
        [⟨"thread.id", .vStr "77"⟩]⟩).properties ∧
    ("thread.id", "77") ∈
      List.flatMap [Field.mk "thread.id" (.vStr "77")] eventFieldDelta :=
  ⟨(thread_enrichment_spans_only.1 .new
      ⟨⟨"s", "t", "INFO", none, none, none⟩, .root, []⟩
      ⟨[], none, false, 0, 3, none⟩ "3").mpr ⟨rfl, by decide⟩,
    rfl,
    thread_enrichment_spans_only.2.2.1 (FastraceCompatLayer.mk true true false)
      (FastraceCompatLayer.mk true false true)
      ⟨⟨"evt", "tgt", "INFO", none, none, none⟩, .current,
        [⟨"thread.id", .vStr "77"⟩]⟩ rfl,
    by decide,
    thread_enrichment_spans_only.2.2.2.1 .new
      ⟨⟨"evt", "tgt", "INFO", none, none, none⟩, .current,
        [⟨"thread.id", .vStr "77"⟩]⟩ "77" (by decide)⟩

end FastraceTracing
